import Mathlib

/-!
Verification of the `imago` CLI's API response negotiation and
model-fallback protocol logic (`src/gemini.rs`), as a shallow embedding.

Bytes are modelled as `Nat` values below 256; strings as Lean `String`;
fallible operations return `Except ImagoError` mirroring the Rust
`Result<T, ImagoError>`.
-/

/-- Error taxonomy of `src/error.rs` (`ImagoError`), restricted to the
variants the protocol engine can produce. -/
inductive ImagoError where
  | MissingApiKey
  | ApiError (status : Nat) (message : String)
  | ApiResponseError (message : String)
  | NoImageData
  | SafetyFilter (reason : String)
  | Base64Error
  | ResponseFormatError (message : String)
  deriving DecidableEq, Repr

/-- `InlineData` of `src/gemini.rs`: a MIME type and base64 payload. -/
structure InlineData where
  mime_type : String
  data : String
  deriving DecidableEq, Repr

/-- `ResponsePart` of `src/gemini.rs`: inbound tagged union. -/
inductive ResponsePart where
  | text (text : String)
  | inlineData (inline_data : InlineData)
  deriving DecidableEq, Repr

/-- `SafetyRating` of `src/gemini.rs`. -/
structure SafetyRating where
  category : String
  probability : String
  blocked : Option Bool
  deriving DecidableEq, Repr

/-- `CandidateContent` of `src/gemini.rs`. -/
structure CandidateContent where
  parts : List ResponsePart
  deriving DecidableEq, Repr

/-- `Candidate` of `src/gemini.rs`. -/
structure Candidate where
  content : Option CandidateContent
  finish_reason : Option String
  safety_ratings : Option (List SafetyRating)
  deriving DecidableEq, Repr

/-- `PromptFeedback` of `src/gemini.rs`. -/
structure PromptFeedback where
  safety_ratings : Option (List SafetyRating)
  block_reason : Option String
  deriving DecidableEq, Repr

/-- `UsageMetadata` of `src/gemini.rs` (ignored by the core logic). -/
structure UsageMetadata where
  prompt_token_count : Option Nat
  candidates_token_count : Option Nat
  total_token_count : Option Nat
  deriving DecidableEq, Repr

/-- `GenerateContentResponse` of `src/gemini.rs`. -/
structure GenerateContentResponse where
  candidates : Option (List Candidate)
  prompt_feedback : Option PromptFeedback
  usage_metadata : Option UsageMetadata
  deriving DecidableEq, Repr

/-! ## Base64 (standard alphabet, RFC 4648, padded), the transport
encoding used at `BASE64_STANDARD.decode` in `extract_image_data`. -/

/-- The standard base64 alphabet. -/
def base64Alphabet : List Char :=
  "ABCDEFGHIJKLMNOPQRSTUVWXYZabcdefghijklmnopqrstuvwxyz0123456789+/".toList

/-- Encode one 6-bit group as a base64 character. -/
def encChar (n : Nat) : Char := base64Alphabet.getD n '*'

/-- Decode one base64 character back to its 6-bit value. -/
def decChar (c : Char) : Option Nat :=
  if 'A' ≤ c ∧ c ≤ 'Z' then some (c.toNat - 65)
  else if 'a' ≤ c ∧ c ≤ 'z' then some (c.toNat - 97 + 26)
  else if '0' ≤ c ∧ c ≤ '9' then some (c.toNat - 48 + 52)
  else if c = '+' then some 62
  else if c = '/' then some 63
  else none

/-- Standard base64 encoding of a byte sequence, with padding. -/
def base64Encode : List Nat → List Char
  | [] => []
  | [a] =>
      [encChar (a / 4), encChar (a % 4 * 16), '=', '=']
  | [a, b] =>
      [encChar (a / 4), encChar (a % 4 * 16 + b / 16), encChar (b % 16 * 4), '=']
  | a :: b :: c :: rest =>
      encChar (a / 4) :: encChar (a % 4 * 16 + b / 16) ::
      encChar (b % 16 * 4 + c / 64) :: encChar (c % 64) :: base64Encode rest

/-- Strict standard base64 decoding (canonical padding, zero trailing
bits), as performed by the base64 library engine used in the source. -/
def base64Decode : List Char → Option (List Nat)
  | [] => some []
  | c1 :: c2 :: c3 :: c4 :: rest =>
      match decChar c1, decChar c2 with
      | some n1, some n2 =>
          if c3 = '=' then
            if c4 = '=' ∧ rest = [] ∧ n2 % 16 = 0 then
              some [n1 * 4 + n2 / 16]
            else none
          else
            match decChar c3 with
            | some n3 =>
                if c4 = '=' then
                  if rest = [] ∧ n3 % 4 = 0 then
                    some [n1 * 4 + n2 / 16, n2 % 16 * 16 + n3 / 4]
                  else none
                else
                  match decChar c4 with
                  | some n4 =>
                      match base64Decode rest with
                      | some tail =>
                          some ((n1 * 4 + n2 / 16) :: (n2 % 16 * 16 + n3 / 4) ::
                                (n3 % 4 * 64 + n4) :: tail)
                      | none => none
                  | none => none
            | none => none
      | _, _ => none
  | _ => none

/-! ## Response extraction (`GeminiClient::extract_image_data`) -/

/-- Rust's `str::starts_with("image/")` on a MIME type, modelled on the
character list so it evaluates by kernel reduction. -/
def mimeIsImage (s : String) : Bool := "image/".toList.isPrefixOf s.toList

/-- The per-part image test of the scan loop: an inline-data part whose
MIME type begins with `image/`. -/
def isImagePart : ResponsePart → Bool
  | .inlineData d => mimeIsImage d.mime_type
  | .text _ => false

/-- The part-scan loop of `extract_image_data` (`for part in content.parts`),
with `text_response` as the accumulator. -/
def scanParts : List ResponsePart → Option String →
    Except ImagoError (List Nat × Option String)
  | [], some t =>
      .error (.ApiResponseError ("Model returned text instead of image: " ++ t))
  | [], none => .error .NoImageData
  | .inlineData d :: rest, acc =>
      if mimeIsImage d.mime_type then
        match base64Decode d.data.toList with
        | some bytes => .ok (bytes, acc)
        | none => .error .Base64Error
      else scanParts rest acc
  | .text t :: rest, _ => scanParts rest (some t)

/-- The blocked-ratings summary built at lines 228–232 of `gemini.rs`:
every rating marked blocked, formatted `category: probability`, in the
original order. -/
def blockedRatings (ratings : List SafetyRating) : List String :=
  (ratings.filter (fun r => r.blocked.getD false)).map
    (fun r => r.category ++ ": " ++ r.probability)

/-- The finish-reason check of `extract_image_data` (lines 223–245):
returns the fatal error, if any, else `none` to fall through. -/
def checkFinishReason (candidate : Candidate) : Option ImagoError :=
  match candidate.finish_reason with
  | none => none
  | some reason =>
      if reason ≠ "STOP" then
        match candidate.safety_ratings with
        | some ratings =>
            if blockedRatings ratings ≠ [] then
              some (.SafetyFilter (String.intercalate ", " (blockedRatings ratings)))
            else if reason = "IMAGE_SAFETY" then
              some (.SafetyFilter "Image content blocked by safety filters")
            else none
        | none =>
            if reason = "IMAGE_SAFETY" then
              some (.SafetyFilter "Image content blocked by safety filters")
            else none
      else none

/-- Steps 5–6 of the extractor: unwrap the candidate's content and scan
its parts. -/
def extractContentOf (candidate : Candidate) :
    Except ImagoError (List Nat × Option String) :=
  match candidate.content with
  | none => .error .NoImageData
  | some content => scanParts content.parts none

/-- Steps 2–6 of the extractor: unwrap candidates, take the first,
check the finish reason, then inspect the content. -/
def extractCandidates (candidates : Option (List Candidate)) :
    Except ImagoError (List Nat × Option String) :=
  match candidates with
  | none => .error .NoImageData
  | some [] => .error .NoImageData
  | some (candidate :: _) =>
      match checkFinishReason candidate with
      | some e => .error e
      | none => extractContentOf candidate

/-- `GeminiClient::extract_image_data`: prompt-feedback check, then
candidate inspection. -/
def extract_image_data (response : GenerateContentResponse) :
    Except ImagoError (List Nat × Option String) :=
  match response.prompt_feedback with
  | some feedback =>
      match feedback.block_reason with
      | some reason => .error (.SafetyFilter ("Request blocked: " ++ reason))
      | none => extractCandidates response.candidates
  | none => extractCandidates response.candidates

/-- Whether the response carries a prompt-feedback block reason (the
condition of the short-circuit at lines 206–212). -/
def hasBlockReason (response : GenerateContentResponse) : Bool :=
  match response.prompt_feedback with
  | some feedback => feedback.block_reason.isSome
  | none => false

/-- Last text part of a part list, threading an accumulator: the value
`text_response` holds when the scan passes the whole list. -/
def lastText : List ResponsePart → Option String → Option String
  | [], acc => acc
  | .text t :: rest, _ => lastText rest (some t)
  | .inlineData _ :: rest, acc => lastText rest acc

/-! ## Model-fallback submission loop (`GeminiClient::send_request`) -/

/-- `MODEL_FALLBACKS` of `src/gemini.rs`. -/
def MODEL_FALLBACKS : List String :=
  ["gemini-2.5-flash-image",
   "gemini-3.1-flash-image-preview",
   "gemini-3-pro-image-preview",
   "gemini-2.0-flash-exp-image-generation"]

/-- Outcome of parsing a successful response body (`serde_json::from_str`). -/
inductive ParseOutcome where
  | parsed (response : GenerateContentResponse)
  | malformed (message : String)
  deriving DecidableEq

/-- Outcome of one HTTP POST for a given model identifier: either an HTTP
success carrying the body's parse outcome, or a non-success status with
the raw body text. -/
inductive HttpOutcome where
  | success (body : ParseOutcome)
  | failure (status : Nat) (body : String)
  deriving DecidableEq

/-- The loop body of `send_request`, over the remaining candidate models
and the `tried` accumulator.  Returns the final `tried` list (exactly the
identifiers contacted, in order) together with the result. -/
def send_request_aux (net : String → HttpOutcome) :
    List String → List String →
    List String × Except ImagoError GenerateContentResponse
  | [], tried =>
      (tried, .error (.ApiResponseError
        ("No available image model found. Tried: " ++ String.intercalate ", " tried)))
  | model :: rest, tried =>
      if tried.contains model then
        send_request_aux net rest tried
      else
        let tried2 := tried ++ [model]
        match net model with
        | .success (.parsed p) => (tried2, .ok p)
        | .success (.malformed e) =>
            (tried2, .error (.ResponseFormatError ("Failed to parse API response: " ++ e)))
        | .failure status body =>
            if status = 404 then send_request_aux net rest tried2
            else (tried2, .error (.ApiError status body))

/-- `GeminiClient::send_request`: iterate `{primary} ++ MODEL_FALLBACKS`,
skipping identifiers already tried.  `net` stands for the HTTP transport
(one POST of the fixed request per identifier). -/
def send_request (net : String → HttpOutcome) (model : String) :
    List String × Except ImagoError GenerateContentResponse :=
  send_request_aux net (model :: MODEL_FALLBACKS) []

/-- Ordered deduplication of a candidate-model list against an
already-seen list: the identifiers `send_request` will actually contact,
in order, when no attempt cuts the loop short. -/
def dedupAgainst : List String → List String → List String
  | [], _ => []
  | m :: rest, seen =>
      if seen.contains m then dedupAgainst rest seen
      else m :: dedupAgainst rest (seen ++ [m])

/-- The submission loop restricted to a duplicate-free candidate list
(no skip branch); `send_request_aux` reduces to it via `dedupAgainst`. -/
def runSeq (net : String → HttpOutcome) :
    List String → List String →
    List String × Except ImagoError GenerateContentResponse
  | [], tried =>
      (tried, .error (.ApiResponseError
        ("No available image model found. Tried: " ++ String.intercalate ", " tried)))
  | model :: rest, tried =>
      let tried2 := tried ++ [model]
      match net model with
      | .success (.parsed p) => (tried2, .ok p)
      | .success (.malformed e) =>
          (tried2, .error (.ResponseFormatError ("Failed to parse API response: " ++ e)))
      | .failure status body =>
          if status = 404 then runSeq net rest tried2
          else (tried2, .error (.ApiError status body))

/-! ## Helper lemmas -/

theorem decChar_encChar_all : ∀ m ∈ List.range 64, decChar (encChar m) = some m := by
  decide

theorem decChar_encChar (n : Nat) (h : n < 64) : decChar (encChar n) = some n :=
  decChar_encChar_all n (List.mem_range.mpr h)

theorem encChar_all_ne_pad : ∀ m ∈ List.range 64, encChar m ≠ '=' := by
  decide

theorem encChar_ne_pad (n : Nat) (h : n < 64) : encChar n ≠ '=' :=
  encChar_all_ne_pad n (List.mem_range.mpr h)

theorem extract_of_not_blocked (resp : GenerateContentResponse)
    (hfb : hasBlockReason resp = false) :
    extract_image_data resp = extractCandidates resp.candidates := by
  cases hr : resp.prompt_feedback with
  | none => simp [extract_image_data, hr]
  | some fb =>
      cases hb : fb.block_reason with
      | none => simp [extract_image_data, hr, hb]
      | some r => simp [hasBlockReason, hr, hb] at hfb

theorem extract_of_blocked (resp : GenerateContentResponse) (fb : PromptFeedback)
    (reason : String) (hfb : resp.prompt_feedback = some fb)
    (hr : fb.block_reason = some reason) :
    extract_image_data resp = .error (.SafetyFilter ("Request blocked: " ++ reason)) := by
  simp [extract_image_data, hfb, hr]

theorem extract_clear_to_content (resp : GenerateContentResponse)
    (c : Candidate) (cs : List Candidate)
    (hfb : hasBlockReason resp = false)
    (hcand : resp.candidates = some (c :: cs))
    (hfin : checkFinishReason c = none) :
    extract_image_data resp = extractContentOf c := by
  rw [extract_of_not_blocked resp hfb, hcand]
  simp [extractCandidates, hfin]

theorem scanParts_append_no_image (pre rest : List ResponsePart) (acc : Option String)
    (hpre : ∀ p ∈ pre, isImagePart p = false) :
    scanParts (pre ++ rest) acc = scanParts rest (lastText pre acc) := by
  induction pre generalizing acc with
  | nil => rfl
  | cons p ps ih =>
      cases p with
      | text t =>
          simpa [scanParts, lastText] using
            ih (some t) (fun q hq => hpre q (by simp [hq]))
      | inlineData d =>
          have hd : mimeIsImage d.mime_type = false := by
            simpa [isImagePart] using hpre (.inlineData d) (by simp)
          simpa [scanParts, lastText, hd] using
            ih acc (fun q hq => hpre q (by simp [hq]))

theorem lastText_of_no_text (parts : List ResponsePart) (acc : Option String)
    (h : ∀ p ∈ parts, ∀ t, p ≠ .text t) : lastText parts acc = acc := by
  induction parts with
  | nil => rfl
  | cons p ps ih =>
      cases p with
      | text t => exact absurd rfl (h (.text t) (by simp) t)
      | inlineData d => simpa [lastText] using ih (fun q hq => h q (by simp [hq]))

/-! ## Claim theorems: response extraction -/

/-- C4: whenever the parsed response's PromptFeedback carries a block
reason (in particular "SAFETY"), extraction fails with SafetyFilter built
from that reason, regardless of the candidates — the prompt-feedback
check precedes all candidate inspection. -/
theorem c4_blockReason_precedes_candidates (resp : GenerateContentResponse)
    (fb : PromptFeedback) (reason : String)
    (hfb : resp.prompt_feedback = some fb)
    (hr : fb.block_reason = some reason) :
    extract_image_data resp = .error (.SafetyFilter ("Request blocked: " ++ reason)) := by
  simp [extract_image_data, hfb, hr]

/-- C4 witness: block reason "SAFETY" together with a candidate holding a
valid image part still yields SafetyFilter. -/
theorem c4_blockReason_precedes_candidates_witness :
    extract_image_data
      ⟨some [⟨some ⟨[.inlineData ⟨"image/png", "UE5HREFUQQ=="⟩]⟩, some "STOP", none⟩],
       some ⟨none, some "SAFETY"⟩, none⟩
      = .error (.SafetyFilter ("Request blocked: " ++ "SAFETY")) :=
  c4_blockReason_precedes_candidates _ _ _ rfl rfl

/-- C5: when the prompt feedback is clear, the first candidate passes the
finish-reason check and its parts are some prefix without an image part
followed by an inline-data part with an `image/` MIME type, extraction
returns that part's decoded payload together with the last text part seen
before it, ignoring all later parts. -/
theorem c5_first_image_part_wins (resp : GenerateContentResponse)
    (c : Candidate) (cs : List Candidate) (ct : CandidateContent)
    (pre : List ResponsePart) (d : InlineData) (post : List ResponsePart)
    (bs : List Nat)
    (hfb : hasBlockReason resp = false)
    (hcand : resp.candidates = some (c :: cs))
    (hfin : checkFinishReason c = none)
    (hct : c.content = some ct)
    (hparts : ct.parts = pre ++ .inlineData d :: post)
    (hpre : ∀ p ∈ pre, isImagePart p = false)
    (hmime : mimeIsImage d.mime_type = true)
    (hdec : base64Decode d.data.toList = some bs) :
    extract_image_data resp = .ok (bs, lastText pre none) := by
  rw [extract_clear_to_content resp c cs hfb hcand hfin]
  have hdec2 : base64Decode d.data.data = some bs := hdec
  simp [extractContentOf, hct, hparts, scanParts_append_no_image _ _ _ hpre,
    scanParts, hmime, hdec2]

/-- C5 witness: parts `[text "here you go", image/png base64("PNGDATA")]`
yield the bytes of "PNGDATA" and the text "here you go". -/
theorem c5_first_image_part_wins_witness :
    extract_image_data
      ⟨some [⟨some ⟨[.text "here you go",
                    .inlineData ⟨"image/png", "UE5HREFUQQ=="⟩]⟩, some "STOP", none⟩],
       none, none⟩
      = .ok ([80, 78, 71, 68, 65, 84, 65], lastText [.text "here you go"] none) :=
  c5_first_image_part_wins _ _ [] _ [.text "here you go"] _ [] _
    rfl rfl (by decide) rfl rfl (by decide) (by decide) (by decide)

/-- C6: for a first candidate with a present non-"STOP" finish reason:
with a blocked safety rating extraction fails with SafetyFilter joining
the blocked categories and probabilities, comma-separated, in order;
without blocked ratings an "IMAGE_SAFETY" reason fails with the fixed
generic SafetyFilter message; otherwise extraction falls through to
content inspection. -/
theorem c6_finish_reason_policy (resp : GenerateContentResponse)
    (c : Candidate) (cs : List Candidate) (r : String)
    (hfb : hasBlockReason resp = false)
    (hcand : resp.candidates = some (c :: cs))
    (hr : c.finish_reason = some r)
    (hstop : r ≠ "STOP") :
    (∀ ratings, c.safety_ratings = some ratings → blockedRatings ratings ≠ [] →
        extract_image_data resp =
          .error (.SafetyFilter (String.intercalate ", " (blockedRatings ratings)))) ∧
    ((∀ ratings, c.safety_ratings = some ratings → blockedRatings ratings = []) →
      r = "IMAGE_SAFETY" →
        extract_image_data resp =
          .error (.SafetyFilter "Image content blocked by safety filters")) ∧
    ((∀ ratings, c.safety_ratings = some ratings → blockedRatings ratings = []) →
      r ≠ "IMAGE_SAFETY" →
        extract_image_data resp = extractContentOf c) := by
  rw [extract_of_not_blocked resp hfb, hcand]
  refine ⟨fun ratings hrat hne => ?_, fun hrat hi => ?_, fun hrat hni => ?_⟩
  · simp [extractCandidates, checkFinishReason, hr, hstop, hrat, hne]
  · cases hrat2 : c.safety_ratings with
    | none => simp [extractCandidates, checkFinishReason, hr, hstop, hrat2, hi]
    | some ratings =>
        simp [extractCandidates, checkFinishReason, hr, hstop, hrat2,
          hrat ratings hrat2, hi]
  · cases hrat2 : c.safety_ratings with
    | none => simp [extractCandidates, checkFinishReason, hr, hstop, hrat2, hni]
    | some ratings =>
        simp [extractCandidates, checkFinishReason, hr, hstop, hrat2,
          hrat ratings hrat2, hni]

/-- C6 witness: a candidate with finish reason "OTHER" and one blocked
rating fails with SafetyFilter listing that category and probability. -/
theorem c6_finish_reason_policy_witness :
    extract_image_data
      ⟨some [⟨none, some "OTHER", some [⟨"HARM_CATEGORY_X", "HIGH", some true⟩]⟩],
       none, none⟩
      = .error (.SafetyFilter
          (String.intercalate ", " (blockedRatings [⟨"HARM_CATEGORY_X", "HIGH", some true⟩]))) :=
  (c6_finish_reason_policy
      ⟨some [⟨none, some "OTHER", some [⟨"HARM_CATEGORY_X", "HIGH", some true⟩]⟩],
       none, none⟩
      ⟨none, some "OTHER", some [⟨"HARM_CATEGORY_X", "HIGH", some true⟩]⟩
      [] "OTHER" (by decide) (by decide) (by decide) (by decide)).1
    [⟨"HARM_CATEGORY_X", "HIGH", some true⟩] (by decide) (by decide)

/-- C7: when the prompt feedback is clear, the first candidate passes the
finish-reason check and its parts contain no image part, extraction fails
with ApiResponseError embedding the last captured text, or with
NoImageData when no text part was seen. -/
theorem c7_text_without_image (resp : GenerateContentResponse)
    (c : Candidate) (cs : List Candidate) (ct : CandidateContent)
    (hfb : hasBlockReason resp = false)
    (hcand : resp.candidates = some (c :: cs))
    (hfin : checkFinishReason c = none)
    (hct : c.content = some ct)
    (hnoimg : ∀ p ∈ ct.parts, isImagePart p = false) :
    (∀ t, lastText ct.parts none = some t →
        extract_image_data resp =
          .error (.ApiResponseError ("Model returned text instead of image: " ++ t))) ∧
    (lastText ct.parts none = none →
        extract_image_data resp = .error .NoImageData) := by
  rw [extract_clear_to_content resp c cs hfb hcand hfin]
  have hscan : scanParts ct.parts none = scanParts [] (lastText ct.parts none) := by
    simpa using scanParts_append_no_image ct.parts [] none hnoimg
  constructor
  · intro t ht
    simp [extractContentOf, hct, hscan, ht, scanParts]
  · intro ht
    simp [extractContentOf, hct, hscan, ht, scanParts]

/-- C7 witness: parts `[text "sorry, can't help"]` with no inline data
fail with ApiResponseError containing that text. -/
theorem c7_text_without_image_witness :
    extract_image_data
      ⟨some [⟨some ⟨[.text "sorry, cannot help"]⟩, some "STOP", none⟩], none, none⟩
      = .error (.ApiResponseError
          ("Model returned text instead of image: " ++ "sorry, cannot help")) :=
  (c7_text_without_image
      ⟨some [⟨some ⟨[.text "sorry, cannot help"]⟩, some "STOP", none⟩], none, none⟩
      ⟨some ⟨[.text "sorry, cannot help"]⟩, some "STOP", none⟩
      [] ⟨[.text "sorry, cannot help"]⟩ (by decide) (by decide) (by decide) (by decide)
      (by decide)).1 "sorry, cannot help" (by decide)

/-- C8 counterexample: a response whose PromptFeedback carries the empty
block reason and whose first candidate holds a valid image part fails at
the prompt-feedback step with SafetyFilter, instead of proceeding to
candidate inspection (which would have succeeded). -/
theorem c8_empty_blockReason_counterexample :
    extract_image_data
      ⟨some [⟨some ⟨[.inlineData ⟨"image/png", "UE5HREFUQQ=="⟩]⟩, some "STOP", none⟩],
       some ⟨none, some ""⟩, none⟩
      = .error (.SafetyFilter ("Request blocked: " ++ "")) ∧
    extractCandidates
      (some [⟨some ⟨[.inlineData ⟨"image/png", "UE5HREFUQQ=="⟩]⟩, some "STOP", none⟩])
      = .ok ([80, 78, 71, 68, 65, 84, 65], none) := by
  constructor
  · rfl
  · rfl

/-- C8 (amended): the prompt-feedback short-circuit fires for every
present block reason, the empty string included; extraction proceeds to
candidate inspection exactly when no block reason is present. -/
theorem c8_blockReason_any_present (resp : GenerateContentResponse) :
    (∀ fb reason, resp.prompt_feedback = some fb → fb.block_reason = some reason →
        extract_image_data resp = .error (.SafetyFilter ("Request blocked: " ++ reason))) ∧
    (hasBlockReason resp = false →
        extract_image_data resp = extractCandidates resp.candidates) := by
  constructor
  · intro fb reason hfb hr
    simp [extract_image_data, hfb, hr]
  · intro h
    exact extract_of_not_blocked resp h

/-- C8 (amended) witness: the empty block reason still short-circuits. -/
theorem c8_blockReason_any_present_witness :
    extract_image_data ⟨none, some ⟨none, some ""⟩, none⟩
      = .error (.SafetyFilter ("Request blocked: " ++ "")) :=
  (c8_blockReason_any_present _).1 _ "" rfl rfl

/-- C9: base64-encoding any byte sequence and decoding it through the
extractor's decode step returns the original bytes exactly. -/
theorem c9_base64_roundtrip (bs : List Nat) (h : ∀ b ∈ bs, b < 256) :
    base64Decode (base64Encode bs) = some bs := by
  induction bs using base64Encode.induct with
  | case1 => rfl
  | case2 a =>
      have ha : a < 256 := h a (by simp)
      have h1 : a / 4 < 64 := by omega
      have h2 : a % 4 * 16 < 64 := by omega
      simp [base64Encode, base64Decode, decChar_encChar _ h1, decChar_encChar _ h2,
        Nat.mul_mod_left]
      omega
  | case3 a b =>
      have ha : a < 256 := h a (by simp)
      have hb : b < 256 := h b (by simp)
      have h1 : a / 4 < 64 := by omega
      have h2 : a % 4 * 16 + b / 16 < 64 := by omega
      have h3 : b % 16 * 4 < 64 := by omega
      simp [base64Encode, base64Decode, decChar_encChar _ h1, decChar_encChar _ h2,
        decChar_encChar _ h3, encChar_ne_pad _ h3, Nat.mul_mod_left]
      omega
  | case4 a b c rest ih =>
      have ha : a < 256 := h a (by simp)
      have hb : b < 256 := h b (by simp)
      have hc : c < 256 := h c (by simp)
      have hrest : ∀ x ∈ rest, x < 256 := fun x hx => h x (by simp [hx])
      have h1 : a / 4 < 64 := by omega
      have h2 : a % 4 * 16 + b / 16 < 64 := by omega
      have h3 : b % 16 * 4 + c / 64 < 64 := by omega
      have h4 : c % 64 < 64 := by omega
      simp [base64Encode, base64Decode, decChar_encChar _ h1, decChar_encChar _ h2,
        decChar_encChar _ h3, decChar_encChar _ h4, encChar_ne_pad _ h3,
        encChar_ne_pad _ h4, ih hrest]
      omega

/-- C9 witness: round-trip at the empty sequence and at a non-UTF8 byte
sequence. -/
theorem c9_base64_roundtrip_witness :
    base64Decode (base64Encode []) = some [] ∧
    base64Decode (base64Encode [255, 254, 0, 128, 7]) = some [255, 254, 0, 128, 7] :=
  ⟨c9_base64_roundtrip [] (by decide),
   c9_base64_roundtrip [255, 254, 0, 128, 7] (by decide)⟩

/-- C10: when the first candidate's parts are all inline-data parts with
non-image MIME types, the scan records no image bytes and no text, so
extraction fails with NoImageData. -/
theorem c10_non_image_inline_skipped (resp : GenerateContentResponse)
    (c : Candidate) (cs : List Candidate) (ct : CandidateContent)
    (hfb : hasBlockReason resp = false)
    (hcand : resp.candidates = some (c :: cs))
    (hfin : checkFinishReason c = none)
    (hct : c.content = some ct)
    (hparts : ∀ p ∈ ct.parts, ∃ d, p = .inlineData d ∧ mimeIsImage d.mime_type = false) :
    extract_image_data resp = .error .NoImageData := by
  have hnoimg : ∀ p ∈ ct.parts, isImagePart p = false := by
    intro p hp
    obtain ⟨d, hd, hm⟩ := hparts p hp
    simp [hd, isImagePart, hm]
  have hnotext : lastText ct.parts none = none := by
    apply lastText_of_no_text
    intro p hp t
    obtain ⟨d, hd, _⟩ := hparts p hp
    simp [hd]
  exact (c7_text_without_image resp c cs ct hfb hcand hfin hct hnoimg).2 hnotext

/-! ## Helper lemmas: submission loop -/

theorem send_request_aux_eq_runSeq (net : String → HttpOutcome) :
    ∀ (models tried : List String),
      send_request_aux net models tried = runSeq net (dedupAgainst models tried) tried := by
  intro models
  induction models with
  | nil => intro tried; rfl
  | cons m rest ih =>
      intro tried
      simp only [send_request_aux, dedupAgainst]
      by_cases h : tried.contains m = true
      · rw [if_pos h, if_pos h, ih]
      · rw [if_neg h, if_neg h]
        cases hn : net m with
        | success body =>
            cases body with
            | parsed p => simp [runSeq, hn]
            | malformed e => simp [runSeq, hn]
        | failure status bodyText =>
            by_cases hs : status = 404
            · simp [runSeq, hn, hs, ih]
            · simp [runSeq, hn, hs]

theorem runSeq_all404 (net : String → HttpOutcome) :
    ∀ (seq tried : List String), (∀ m ∈ seq, ∃ b, net m = .failure 404 b) →
      runSeq net seq tried =
        (tried ++ seq, .error (.ApiResponseError
          ("No available image model found. Tried: " ++
            String.intercalate ", " (tried ++ seq)))) := by
  intro seq
  induction seq with
  | nil => intro tried _; simp [runSeq]
  | cons m rest ih =>
      intro tried h
      obtain ⟨b, hb⟩ := h m (by simp)
      have := ih (tried ++ [m]) (fun x hx => h x (by simp [hx]))
      simp [runSeq, hb, this]

theorem runSeq_fst_take (net : String → HttpOutcome) :
    ∀ (seq tried : List String), ∃ k, (runSeq net seq tried).fst = tried ++ seq.take k := by
  intro seq
  induction seq with
  | nil => intro tried; exact ⟨0, by simp [runSeq]⟩
  | cons m rest ih =>
      intro tried
      cases hn : net m with
      | success body =>
          cases body with
          | parsed p => exact ⟨1, by simp [runSeq, hn]⟩
          | malformed e => exact ⟨1, by simp [runSeq, hn]⟩
      | failure status bodyText =>
          by_cases hs : status = 404
          · obtain ⟨k, hk⟩ := ih (tried ++ [m])
            exact ⟨k + 1, by simp [runSeq, hn, hs, hk]⟩
          · exact ⟨1, by simp [runSeq, hn, hs]⟩

theorem runSeq_stops_non404 (net : String → HttpOutcome) (m : String)
    (status : Nat) (body : String) (post : List String)
    (hm : net m = .failure status body) (hs : status ≠ 404) :
    ∀ (pre tried : List String), (∀ x ∈ pre, ∃ b, net x = .failure 404 b) →
      runSeq net (pre ++ m :: post) tried =
        (tried ++ pre ++ [m], .error (.ApiError status body)) := by
  intro pre
  induction pre with
  | nil => intro tried _; simp [runSeq, hm, hs]
  | cons x xs ih =>
      intro tried h
      obtain ⟨b, hb⟩ := h x (by simp)
      have := ih (tried ++ [x]) (fun y hy => h y (by simp [hy]))
      simp [runSeq, hb, this]

theorem dedupAgainst_nodup_not_seen :
    ∀ (l seen : List String), (dedupAgainst l seen).Nodup ∧
      ∀ x ∈ dedupAgainst l seen, x ∉ seen := by
  intro l
  induction l with
  | nil => intro seen; simp [dedupAgainst]
  | cons m rest ih =>
      intro seen
      simp only [dedupAgainst]
      by_cases h : seen.contains m = true
      · rw [if_pos h]; exact ih seen
      · rw [if_neg h]
        have hm : m ∉ seen := by simpa using h
        obtain ⟨hnd, hns⟩ := ih (seen ++ [m])
        refine ⟨List.nodup_cons.mpr ⟨fun hmem => ?_, hnd⟩, ?_⟩
        · exact hns m hmem (by simp)
        · intro x hx
          rcases List.mem_cons.mp hx with hx | hx
          · exact hx ▸ hm
          · intro hxs; exact hns x hx (by simp [hxs])

theorem dedupAgainst_of_nodup :
    ∀ (l : List String), l.Nodup → ∀ seen,
      dedupAgainst l seen = l.filter (fun m => !(seen.contains m)) := by
  intro l
  induction l with
  | nil => intro _ seen; rfl
  | cons m rest ih =>
      intro hnd seen
      obtain ⟨hm, hrest⟩ := List.nodup_cons.mp hnd
      simp only [dedupAgainst]
      by_cases h : seen.contains m = true
      · have hm2 : m ∈ seen := by simpa using h
        rw [if_pos h, ih hrest seen]
        simp [List.filter_cons, hm2]
      · have hm2 : m ∉ seen := by simpa using h
        rw [if_neg h, ih hrest (seen ++ [m])]
        have hcong : ∀ x ∈ rest, (!((seen ++ [m]).contains x)) = (!(seen.contains x)) := by
          intro x hx
          have hxm : x ≠ m := fun hxe => hm (hxe ▸ hx)
          simp [hxm]
        rw [List.filter_congr hcong]
        simp [List.filter_cons, hm2]

theorem attemptSequence_eq (primary : String) :
    dedupAgainst (primary :: MODEL_FALLBACKS) [] =
      primary :: MODEL_FALLBACKS.filter (fun m => !(m == primary)) := by
  have hnd : MODEL_FALLBACKS.Nodup := by decide
  rw [dedupAgainst, if_neg (by simp), List.nil_append,
    dedupAgainst_of_nodup MODEL_FALLBACKS hnd [primary]]
  congr 1
  apply List.filter_congr
  intro x _
  by_cases h : x = primary <;> simp [h]

theorem attemptSequence_nodup (primary : String) :
    (primary :: MODEL_FALLBACKS.filter (fun m => !(m == primary))).Nodup := by
  have hnd : MODEL_FALLBACKS.Nodup := by decide
  refine List.nodup_cons.mpr ⟨?_, hnd.filter _⟩
  intro hmem
  have := List.of_mem_filter hmem
  simp at this

/-! ## Claim theorems: submission loop -/

/-- C1: the submission loop never contacts an identifier twice in one
call; when no attempt cuts the loop short (every model 404s) the contacted
sequence is exactly the primary followed by the fallbacks different from
it, in their original order; and that combined attempt sequence holds the
primary exactly once, in its primary-first position. -/
theorem c1_attempt_sequence (primary : String) (net : String → HttpOutcome) :
    (send_request net primary).fst.Nodup ∧
    ((∀ m ∈ primary :: MODEL_FALLBACKS.filter (fun x => !(x == primary)),
        ∃ b, net m = .failure 404 b) →
      (send_request net primary).fst =
        primary :: MODEL_FALLBACKS.filter (fun x => !(x == primary))) ∧
    (primary :: MODEL_FALLBACKS.filter (fun x => !(x == primary))).count primary = 1 := by
  refine ⟨?_, ?_, ?_⟩
  · unfold send_request
    rw [send_request_aux_eq_runSeq, attemptSequence_eq primary]
    obtain ⟨k, hk⟩ := runSeq_fst_take net
      (primary :: MODEL_FALLBACKS.filter (fun x => !(x == primary))) []
    rw [hk]
    simp only [List.nil_append]
    exact (attemptSequence_nodup primary).sublist (List.take_sublist _ _)
  · intro h404
    unfold send_request
    rw [send_request_aux_eq_runSeq, attemptSequence_eq primary,
      runSeq_all404 net _ [] h404]
    simp
  · have hnotmem : primary ∉ MODEL_FALLBACKS.filter (fun x => !(x == primary)) := by
      intro hmem
      have := List.of_mem_filter hmem
      simp at this
    rw [List.count_cons_self, List.count_eq_zero.mpr hnotmem]

/-- C1 witness: a primary equal to the first fallback is contacted once,
first, and the attempt sequence skips its duplicate. -/
theorem c1_attempt_sequence_witness :
    (send_request (fun _ => .failure 404 "nf") "gemini-2.5-flash-image").fst =
      "gemini-2.5-flash-image" ::
        MODEL_FALLBACKS.filter (fun x => !(x == "gemini-2.5-flash-image")) :=
  (c1_attempt_sequence "gemini-2.5-flash-image" _).2.1 (fun _ _ => ⟨"nf", rfl⟩)

/-- C2: when the identifiers tried before position `i` of the combined
attempt sequence all return 404 and the identifier at position `i`
returns a non-404 failure status, the loop stops there with ApiError
carrying that status and the raw body; identifiers after it are never
contacted. -/
theorem c2_non404_failure_stops (primary : String) (net : String → HttpOutcome)
    (status : Nat) (body : String) (pre : List String) (m : String) (post : List String)
    (hseq : dedupAgainst (primary :: MODEL_FALLBACKS) [] = pre ++ m :: post)
    (hpre : ∀ x ∈ pre, ∃ b, net x = .failure 404 b)
    (hm : net m = .failure status body)
    (hs : status ≠ 404) :
    send_request net primary = (pre ++ [m], .error (.ApiError status body)) := by
  unfold send_request
  rw [send_request_aux_eq_runSeq, hseq,
    runSeq_stops_non404 net m status body post hm hs pre [] hpre]
  simp

/-- C2 witness: the primary returns 500, so exactly one identifier is
contacted and the loop fails with ApiError 500 and the body text. -/
theorem c2_non404_failure_stops_witness :
    send_request
      (fun x => if x = "primary-model" then .failure 500 "boom" else .failure 404 "")
      "primary-model"
      = (["primary-model"], .error (.ApiError 500 "boom")) :=
  c2_non404_failure_stops "primary-model" _ 500 "boom" [] "primary-model"
    MODEL_FALLBACKS (by decide) (by simp) (by decide) (by decide)

/-- C3: when every identifier of the combined attempt sequence returns
404, the loop terminates with ApiResponseError listing every identifier
tried, comma-separated, in attempt order, and the list of tried
identifiers is duplicate-free. -/
theorem c3_exhausted_lists_tried (primary : String) (net : String → HttpOutcome)
    (h404 : ∀ m ∈ primary :: MODEL_FALLBACKS.filter (fun x => !(x == primary)),
        ∃ b, net m = .failure 404 b) :
    send_request net primary =
      (primary :: MODEL_FALLBACKS.filter (fun x => !(x == primary)),
        .error (.ApiResponseError ("No available image model found. Tried: " ++
          String.intercalate ", "
            (primary :: MODEL_FALLBACKS.filter (fun x => !(x == primary)))))) ∧
    (primary :: MODEL_FALLBACKS.filter (fun x => !(x == primary))).Nodup := by
  constructor
  · unfold send_request
    rw [send_request_aux_eq_runSeq, attemptSequence_eq primary,
      runSeq_all404 net _ [] h404]
    simp
  · exact attemptSequence_nodup primary

/-- C3 witness: a fresh primary with an all-404 transport fails with the
exhaustion message listing all five identifiers in order. -/
theorem c3_exhausted_lists_tried_witness :
    send_request (fun _ => .failure 404 "not found") "my-model" =
      ("my-model" :: MODEL_FALLBACKS.filter (fun x => !(x == "my-model")),
        .error (.ApiResponseError ("No available image model found. Tried: " ++
          String.intercalate ", "
            ("my-model" :: MODEL_FALLBACKS.filter (fun x => !(x == "my-model")))))) :=
  (c3_exhausted_lists_tried "my-model" _ (fun _ _ => ⟨"not found", rfl⟩)).1

/-- C10 witness: a sole inline-data part with MIME type
"application/json" is skipped and extraction fails with NoImageData. -/
theorem c10_non_image_inline_skipped_witness :
    extract_image_data
      ⟨some [⟨some ⟨[.inlineData ⟨"application/json", "e30="⟩]⟩, some "STOP", none⟩],
       none, none⟩
      = .error .NoImageData :=
  c10_non_image_inline_skipped
    ⟨some [⟨some ⟨[.inlineData ⟨"application/json", "e30="⟩]⟩, some "STOP", none⟩],
     none, none⟩
    ⟨some ⟨[.inlineData ⟨"application/json", "e30="⟩]⟩, some "STOP", none⟩
    [] ⟨[.inlineData ⟨"application/json", "e30="⟩]⟩
    (by decide) (by decide) (by decide) (by decide)
    (by
      intro p hp
      simp only [List.mem_singleton] at hp
      exact ⟨⟨"application/json", "e30="⟩, hp, by decide⟩)
